import Mathlib

/-!
Verification of the xauste streaming, schema-validating XML parser.

The core of the repository is `Dictionary::from_reader` in `src/main.rs`
together with the record-level readers generated by the `hard_xml` derive
macro from the field declarations on `NlWord`, `Word`, `Keyword`,
`GlossWord` and `User`.  We embed the parser shallowly: the tokenizer's
event stream becomes a `List Token`, the stateful reader cursor becomes
explicit list passing, and every fallible step returns `Except XmlError`.
Loops over child elements carry an explicit fuel parameter (each loop
iteration consumes at least one token, so `length + 1` fuel always
suffices, which `parse` uses).
-/

namespace Xauste

/-- Modelled from the spec: the event shapes of the external tokenizer
collaborator (element starts, attributes, the three element-end variants,
and text), as described in §2 and §9 of the design. -/
inductive Token where
  | elementStart (name : String)
  | attr (key value : String)
  | elementEndOpen
  | elementEndClose (name : String)
  | elementEndEmpty
  | text (s : String)
deriving DecidableEq

/-- The error taxonomy of §4.3 / §7: `unknownField` and `missingField`
mirror `XmlError::UnknownField` / `XmlError::MissingField`; `fromStr`
is the `InvalidValue`-class error carrying the raw offending text
(`XmlError::FromStr`, used for `u32`, `bool` and `WordType` values);
`unexpectedToken` / `unexpectedEof` are the tokenizer passthrough errors. -/
inductive XmlError where
  | unknownField (name field : String)
  | missingField (name field : String)
  | fromStr (text : String)
  | unexpectedToken
  | unexpectedEof
deriving DecidableEq

instance {ε α : Type} [DecidableEq ε] [DecidableEq α] :
    DecidableEq (Except ε α)
  | .error a, .error b =>
      if h : a = b then .isTrue (h ▸ rfl)
      else .isFalse fun hh => h (Except.error.inj hh)
  | .ok a, .ok b =>
      if h : a = b then .isTrue (h ▸ rfl)
      else .isFalse fun hh => h (Except.ok.inj hh)
  | .error _, .ok _ => .isFalse fun hh => Except.noConfusion hh
  | .ok _, .error _ => .isFalse fun hh => Except.noConfusion hh

/-- Rust `bool::from_str`: exactly the strings true and false parse. -/
def parseBool (s : String) : Option Bool :=
  if s = "true" then some true
  else if s = "false" then some false
  else none

/-- Rust `u32::from_str`: an optional leading plus sign, then one or more
decimal digits, with the value bounded by `2^32`. -/
def parseU32 (s : String) : Option Nat :=
  let cs :=
    match s.data with
    | '+' :: rest => rest
    | cs => cs
  if cs.isEmpty then none
  else if cs.all Char.isDigit then
    let n := cs.foldl (fun a c => a * 10 + (c.toNat - 48)) 0
    if n < 2 ^ 32 then some n else none
  else none

/-- The closed `WordType` enumeration of `src/main.rs`. -/
inductive WordType where
  | buLetteral
  | cmavo
  | cmavoCompound
  | cmevla
  | experimentalCmavo
  | experimentalGismu
  | fuhivla
  | gismu
  | lujvo
  | obsoleteCmavo
  | obsoleteCmevla
  | obsoleteFuhivla
  | obsoleteZeiLujvo
  | zeiLujvo
deriving DecidableEq

/-- `WordType::from_str` from `src/main.rs`: the fourteen-string
vocabulary; any other string yields `WordTypeFromStrError` carrying the
offending text (modelled as the error payload). -/
def WordType.fromStr (s : String) : Except String WordType :=
  if s = "bu-letteral" then .ok .buLetteral
  else if s = "cmavo" then .ok .cmavo
  else if s = "cmavo-compound" then .ok .cmavoCompound
  else if s = "cmevla" then .ok .cmevla
  else if s = "experimental cmavo" then .ok .experimentalCmavo
  else if s = "experimental gismu" then .ok .experimentalGismu
  else if s = "fu\x27ivla" then .ok .fuhivla
  else if s = "gismu" then .ok .gismu
  else if s = "lujvo" then .ok .lujvo
  else if s = "obsolete cmavo" then .ok .obsoleteCmavo
  else if s = "obsolete cmevla" then .ok .obsoleteCmevla
  else if s = "obsolete fu\x27ivla" then .ok .obsoleteFuhivla
  else if s = "obsolete zei-lujvo" then .ok .obsoleteZeiLujvo
  else if s = "zei-lujvo" then .ok .zeiLujvo
  else .error s

/-- The fourteen-string vocabulary of `WordType::from_str`, in source
order. -/
def wordTypeVocabulary : List String :=
  ["bu-letteral", "cmavo", "cmavo-compound", "cmevla",
   "experimental cmavo", "experimental gismu", "fu\x27ivla", "gismu",
   "lujvo", "obsolete cmavo", "obsolete cmevla", "obsolete fu\x27ivla",
   "obsolete zei-lujvo", "zei-lujvo"]

/-- `User` from `src/main.rs`. -/
structure User where
  username : String
  realname : Option String
deriving DecidableEq

/-- `GlossWord` from `src/main.rs`. -/
structure GlossWord where
  word : String
  sense : Option String
deriving DecidableEq

/-- `Keyword` from `src/main.rs`. -/
structure Keyword where
  word : String
  place : Nat
  sense : Option String
deriving DecidableEq

/-- `Word` (tag `valsi`) from `src/main.rs`. -/
structure Word where
  word : String
  ty : WordType
  unofficial : Bool
  rafsi : List String
  selmaho : Option String
  user : User
  definition : String
  definition_id : Nat
  notes : Option String
  glosses : List GlossWord
  keywords : List Keyword
deriving DecidableEq

/-- `NlWord` (tag `nlword`) from `src/main.rs`. -/
structure NlWord where
  word : String
  sense : Option String
  place : Option Nat
  valsi : String
deriving DecidableEq

/-- `Dictionary` from `src/main.rs`. -/
structure Dictionary where
  lojban_to_english : List Word
  english_to_lojban : List NlWord
deriving DecidableEq

/-- Modelled from the spec: `XmlReader::find_attribute` of the external
`hard_xml` cursor collaborator — peek at the next event; consume and
return an attribute, stop (without consuming) at an element-end event,
reject any other event. -/
def findAttribute : List Token → Except XmlError (Option (String × String) × List Token)
  | [] => .ok (none, [])
  | Token.attr k v :: rest => .ok (some (k, v), rest)
  | ts@(Token.elementEndOpen :: _) => .ok (none, ts)
  | ts@(Token.elementEndClose _ :: _) => .ok (none, ts)
  | ts@(Token.elementEndEmpty :: _) => .ok (none, ts)
  | _ => .error .unexpectedToken

/-- Modelled from the spec: `XmlReader::read_till_element_start` of the
cursor collaborator — skip text, then consume the element-start event
with the expected name. -/
def readTillElementStart (tag : String) : List Token → Except XmlError (List Token)
  | [] => .error .unexpectedEof
  | Token.elementStart t :: rest =>
      if t = tag then .ok rest else .error .unexpectedToken
  | Token.text _ :: rest => readTillElementStart tag rest
  | _ => .error .unexpectedToken

/-- Modelled from the spec: reading a flattened-text child — after its
element start has been consumed, the body collapses to one string value
(§4.2: collapsing a definition element into a plain string field). -/
def readFlattenText (tag : String) : List Token → Except XmlError (String × List Token)
  | Token.elementEndOpen :: Token.text s :: Token.elementEndClose t :: rest =>
      if t = tag then .ok (s, rest) else .error .unexpectedToken
  | Token.elementEndOpen :: Token.elementEndClose t :: rest =>
      if t = tag then .ok ("", rest) else .error .unexpectedToken
  | Token.elementEndEmpty :: rest => .ok ("", rest)
  | _ => .error .unexpectedToken

/-- Requiring a field at element-close time (§4.2): absent means a
missing-field error naming the record and the field. -/
def req (o : Option α) (name field : String) : Except XmlError α :=
  match o with
  | some a => .ok a
  | none => .error (.missingField name field)

/-- Modelled from the spec: attribute loop of the derived `GlossWord`
reader (attributes `word` and `sense`; anything else is an unknown
field naming the record, §4.2). -/
def glossAttrs : Option String → Option String → List Token →
    Except XmlError ((Option String × Option String) × List Token)
  | w, s, [] => .ok ((w, s), [])
  | w, s, Token.attr k v :: rest =>
      if k = "word" then glossAttrs (some v) s rest
      else if k = "sense" then glossAttrs w (some v) rest
      else .error (.unknownField "glossword" k)
  | w, s, ts@(Token.elementEndOpen :: _) => .ok ((w, s), ts)
  | w, s, ts@(Token.elementEndClose _ :: _) => .ok ((w, s), ts)
  | w, s, ts@(Token.elementEndEmpty :: _) => .ok ((w, s), ts)
  | _, _, _ => .error .unexpectedToken

/-- Close-time field check for `GlossWord`: `word` is required. -/
def glossFinalize (w s : Option String) (rest : List Token) :
    Except XmlError (GlossWord × List Token) := do
  let w ← req w "glossword" "word"
  .ok ({ word := w, sense := s }, rest)

/-- Modelled from the spec: child loop of the derived `GlossWord` reader —
no children are declared, so any child element is an unknown field. -/
def glossChildren : Nat → Option String → Option String → List Token →
    Except XmlError (GlossWord × List Token)
  | 0, _, _, _ => .error .unexpectedEof
  | _ + 1, w, s, [] => glossFinalize w s []
  | _ + 1, _, _, Token.elementStart c :: _ => .error (.unknownField "glossword" c)
  | fuel + 1, w, s, Token.elementEndClose t :: rest =>
      if t = "glossword" then glossFinalize w s rest else glossChildren fuel w s rest
  | fuel + 1, w, s, _ :: rest => glossChildren fuel w s rest

/-- Modelled from the spec: the derived reader for one `glossword`
element (§4.2 generic record shape). -/
def glossFromReader (fuel : Nat) (ts : List Token) :
    Except XmlError (GlossWord × List Token) := do
  let ts ← readTillElementStart "glossword" ts
  let ((w, s), ts) ← glossAttrs none none ts
  match ts with
  | [] => .error .unexpectedEof
  | Token.elementEndEmpty :: rest => glossFinalize w s rest
  | Token.elementEndOpen :: rest => glossChildren fuel w s rest
  | _ => .error .unexpectedToken

/-- Modelled from the spec: attribute loop of the derived `Keyword`
reader (`word`, required `u32` attribute `place`, optional `sense`). -/
def keywordAttrs : Option String → Option Nat → Option String → List Token →
    Except XmlError ((Option String × Option Nat × Option String) × List Token)
  | w, p, s, [] => .ok ((w, p, s), [])
  | w, p, s, Token.attr k v :: rest =>
      if k = "word" then keywordAttrs (some v) p s rest
      else if k = "place" then
        match parseU32 v with
        | some n => keywordAttrs w (some n) s rest
        | none => .error (.fromStr v)
      else if k = "sense" then keywordAttrs w p (some v) rest
      else .error (.unknownField "keyword" k)
  | w, p, s, ts@(Token.elementEndOpen :: _) => .ok ((w, p, s), ts)
  | w, p, s, ts@(Token.elementEndClose _ :: _) => .ok ((w, p, s), ts)
  | w, p, s, ts@(Token.elementEndEmpty :: _) => .ok ((w, p, s), ts)
  | _, _, _, _ => .error .unexpectedToken

/-- Close-time field check for `Keyword`: `word` and `place` required. -/
def keywordFinalize (w : Option String) (p : Option Nat) (s : Option String)
    (rest : List Token) : Except XmlError (Keyword × List Token) := do
  let w ← req w "keyword" "word"
  let p ← req p "keyword" "place"
  .ok ({ word := w, place := p, sense := s }, rest)

/-- Modelled from the spec: child loop of the derived `Keyword` reader —
no children declared. -/
def keywordChildren : Nat → Option String → Option Nat → Option String → List Token →
    Except XmlError (Keyword × List Token)
  | 0, _, _, _, _ => .error .unexpectedEof
  | _ + 1, w, p, s, [] => keywordFinalize w p s []
  | _ + 1, _, _, _, Token.elementStart c :: _ => .error (.unknownField "keyword" c)
  | fuel + 1, w, p, s, Token.elementEndClose t :: rest =>
      if t = "keyword" then keywordFinalize w p s rest
      else keywordChildren fuel w p s rest
  | fuel + 1, w, p, s, _ :: rest => keywordChildren fuel w p s rest

/-- Modelled from the spec: the derived reader for one `keyword` element. -/
def keywordFromReader (fuel : Nat) (ts : List Token) :
    Except XmlError (Keyword × List Token) := do
  let ts ← readTillElementStart "keyword" ts
  let ((w, p, s), ts) ← keywordAttrs none none none ts
  match ts with
  | [] => .error .unexpectedEof
  | Token.elementEndEmpty :: rest => keywordFinalize w p s rest
  | Token.elementEndOpen :: rest => keywordChildren fuel w p s rest
  | _ => .error .unexpectedToken

/-- Modelled from the spec: attribute loop of the derived `NlWord` reader
(`word`, optional `sense`, optional `u32` attribute `place`, required
`valsi`). -/
def nlwordAttrs : Option String → Option String → Option Nat → Option String →
    List Token →
    Except XmlError ((Option String × Option String × Option Nat × Option String) × List Token)
  | w, s, p, va, [] => .ok ((w, s, p, va), [])
  | w, s, p, va, Token.attr k v :: rest =>
      if k = "word" then nlwordAttrs (some v) s p va rest
      else if k = "sense" then nlwordAttrs w (some v) p va rest
      else if k = "place" then
        match parseU32 v with
        | some n => nlwordAttrs w s (some n) va rest
        | none => .error (.fromStr v)
      else if k = "valsi" then nlwordAttrs w s p (some v) rest
      else .error (.unknownField "nlword" k)
  | w, s, p, va, ts@(Token.elementEndOpen :: _) => .ok ((w, s, p, va), ts)
  | w, s, p, va, ts@(Token.elementEndClose _ :: _) => .ok ((w, s, p, va), ts)
  | w, s, p, va, ts@(Token.elementEndEmpty :: _) => .ok ((w, s, p, va), ts)
  | _, _, _, _, _ => .error .unexpectedToken

/-- Close-time field check for `NlWord`: `word` and `valsi` required. -/
def nlwordFinalize (w : Option String) (s : Option String) (p : Option Nat)
    (va : Option String) (rest : List Token) :
    Except XmlError (NlWord × List Token) := do
  let w ← req w "nlword" "word"
  let va ← req va "nlword" "valsi"
  .ok ({ word := w, sense := s, place := p, valsi := va }, rest)

/-- Modelled from the spec: child loop of the derived `NlWord` reader —
no children declared. -/
def nlwordChildren : Nat → Option String → Option String → Option Nat →
    Option String → List Token → Except XmlError (NlWord × List Token)
  | 0, _, _, _, _, _ => .error .unexpectedEof
  | _ + 1, w, s, p, va, [] => nlwordFinalize w s p va []
  | _ + 1, _, _, _, _, Token.elementStart c :: _ => .error (.unknownField "nlword" c)
  | fuel + 1, w, s, p, va, Token.elementEndClose t :: rest =>
      if t = "nlword" then nlwordFinalize w s p va rest
      else nlwordChildren fuel w s p va rest
  | fuel + 1, w, s, p, va, _ :: rest => nlwordChildren fuel w s p va rest

/-- Modelled from the spec: the derived reader for one `nlword` element. -/
def nlwordFromReader (fuel : Nat) (ts : List Token) :
    Except XmlError (NlWord × List Token) := do
  let ts ← readTillElementStart "nlword" ts
  let ((w, s, p, va), ts) ← nlwordAttrs none none none none ts
  match ts with
  | [] => .error .unexpectedEof
  | Token.elementEndEmpty :: rest => nlwordFinalize w s p va rest
  | Token.elementEndOpen :: rest => nlwordChildren fuel w s p va rest
  | _ => .error .unexpectedToken

/-- Modelled from the spec: attribute loop of the derived `User` reader —
no attributes are declared, so any attribute is an unknown field. -/
def userAttrs : List Token → Except XmlError (List Token)
  | [] => .ok []
  | Token.attr k _ :: _ => .error (.unknownField "user" k)
  | ts@(Token.elementEndOpen :: _) => .ok ts
  | ts@(Token.elementEndClose _ :: _) => .ok ts
  | ts@(Token.elementEndEmpty :: _) => .ok ts
  | _ => .error .unexpectedToken

/-- Close-time field check for `User`: `username` required. -/
def userFinalize (u r : Option String) (rest : List Token) :
    Except XmlError (User × List Token) := do
  let u ← req u "user" "username"
  .ok ({ username := u, realname := r }, rest)

/-- Modelled from the spec: child loop of the derived `User` reader —
flattened-text children `username` and `realname`; anything else is an
unknown field. -/
def userChildren : Nat → Option String → Option String → List Token →
    Except XmlError (User × List Token)
  | 0, _, _, _ => .error .unexpectedEof
  | _ + 1, u, r, [] => userFinalize u r []
  | fuel + 1, u, r, Token.elementStart c :: rest =>
      if c = "username" then
        match readFlattenText "username" rest with
        | .ok (s, rest2) => userChildren fuel (some s) r rest2
        | .error e => .error e
      else if c = "realname" then
        match readFlattenText "realname" rest with
        | .ok (s, rest2) => userChildren fuel u (some s) rest2
        | .error e => .error e
      else .error (.unknownField "user" c)
  | fuel + 1, u, r, Token.elementEndClose t :: rest =>
      if t = "user" then userFinalize u r rest else userChildren fuel u r rest
  | fuel + 1, u, r, _ :: rest => userChildren fuel u r rest

/-- Modelled from the spec: the derived reader for one `user` element. -/
def userFromReader (fuel : Nat) (ts : List Token) :
    Except XmlError (User × List Token) := do
  let ts ← readTillElementStart "user" ts
  let ts ← userAttrs ts
  match ts with
  | [] => .error .unexpectedEof
  | Token.elementEndEmpty :: rest => userFinalize none none rest
  | Token.elementEndOpen :: rest => userChildren fuel none none rest
  | _ => .error .unexpectedToken

/-- Accumulator of the derived `Word` reader, one optional slot per
field declared on `Word` in `src/main.rs`. -/
structure WordAcc where
  word : Option String
  ty : Option WordType
  unofficial : Option Bool
  rafsi : List String
  selmaho : Option String
  user : Option User
  definition : Option String
  definition_id : Option Nat
  notes : Option String
  glosses : List GlossWord
  keywords : List Keyword
deriving DecidableEq

/-- The empty `Word` accumulator. -/
def WordAcc.init : WordAcc :=
  ⟨none, none, none, [], none, none, none, none, none, [], []⟩

/-- Modelled from the spec: attribute loop of the derived `Word` reader
(`word`, enumerated `type`, boolean `unofficial`; anything else is an
unknown field; a value failing its typed parse carries the raw text). -/
def valsiAttrs : WordAcc → List Token → Except XmlError (WordAcc × List Token)
  | acc, [] => .ok (acc, [])
  | acc, Token.attr k v :: rest =>
      if k = "word" then valsiAttrs { acc with word := some v } rest
      else if k = "type" then
        match WordType.fromStr v with
        | .ok t => valsiAttrs { acc with ty := some t } rest
        | .error e => .error (.fromStr e)
      else if k = "unofficial" then
        match parseBool v with
        | some b => valsiAttrs { acc with unofficial := some b } rest
        | none => .error (.fromStr v)
      else .error (.unknownField "valsi" k)
  | acc, ts@(Token.elementEndOpen :: _) => .ok (acc, ts)
  | acc, ts@(Token.elementEndClose _ :: _) => .ok (acc, ts)
  | acc, ts@(Token.elementEndEmpty :: _) => .ok (acc, ts)
  | _, _ => .error .unexpectedToken

/-- Close-time field check for `Word`: `word`, `type`, `user`,
`definition` and `definitionid` are required; `unofficial` defaults to
false when absent (the `default` marker in `src/main.rs`). -/
def valsiFinalize (acc : WordAcc) (rest : List Token) :
    Except XmlError (Word × List Token) := do
  let w ← req acc.word "valsi" "word"
  let t ← req acc.ty "valsi" "type"
  let u ← req acc.user "valsi" "user"
  let d ← req acc.definition "valsi" "definition"
  let di ← req acc.definition_id "valsi" "definitionid"
  .ok ({ word := w, ty := t, unofficial := acc.unofficial.getD false,
         rafsi := acc.rafsi, selmaho := acc.selmaho, user := u,
         definition := d, definition_id := di, notes := acc.notes,
         glosses := acc.glosses, keywords := acc.keywords }, rest)

/-- Modelled from the spec: child loop of the derived `Word` reader —
flattened-text children `rafsi` (repeatable), `selmaho`, `definition`,
`definitionid` (`u32`), `notes`; nested records `user`, `glossword`
(repeatable) and `keyword` (repeatable); anything else is an unknown
field.  Repeatable children accumulate in encounter order. -/
def valsiChildren : Nat → WordAcc → List Token → Except XmlError (Word × List Token)
  | 0, _, _ => .error .unexpectedEof
  | _ + 1, acc, [] => valsiFinalize acc []
  | fuel + 1, acc, ts@(Token.elementStart c :: rest) =>
      if c = "rafsi" then
        match readFlattenText "rafsi" rest with
        | .ok (s, rest2) => valsiChildren fuel { acc with rafsi := acc.rafsi ++ [s] } rest2
        | .error e => .error e
      else if c = "selmaho" then
        match readFlattenText "selmaho" rest with
        | .ok (s, rest2) => valsiChildren fuel { acc with selmaho := some s } rest2
        | .error e => .error e
      else if c = "user" then
        match userFromReader fuel ts with
        | .ok (u, rest2) => valsiChildren fuel { acc with user := some u } rest2
        | .error e => .error e
      else if c = "definition" then
        match readFlattenText "definition" rest with
        | .ok (s, rest2) => valsiChildren fuel { acc with definition := some s } rest2
        | .error e => .error e
      else if c = "definitionid" then
        match readFlattenText "definitionid" rest with
        | .ok (s, rest2) =>
          match parseU32 s with
          | some n => valsiChildren fuel { acc with definition_id := some n } rest2
          | none => .error (.fromStr s)
        | .error e => .error e
      else if c = "notes" then
        match readFlattenText "notes" rest with
        | .ok (s, rest2) => valsiChildren fuel { acc with notes := some s } rest2
        | .error e => .error e
      else if c = "glossword" then
        match glossFromReader fuel ts with
        | .ok (g, rest2) => valsiChildren fuel { acc with glosses := acc.glosses ++ [g] } rest2
        | .error e => .error e
      else if c = "keyword" then
        match keywordFromReader fuel ts with
        | .ok (kw, rest2) => valsiChildren fuel { acc with keywords := acc.keywords ++ [kw] } rest2
        | .error e => .error e
      else .error (.unknownField "valsi" c)
  | fuel + 1, acc, Token.elementEndClose t :: rest =>
      if t = "valsi" then valsiFinalize acc rest else valsiChildren fuel acc rest
  | fuel + 1, acc, _ :: rest => valsiChildren fuel acc rest

/-- Modelled from the spec: the derived reader for one `valsi` element. -/
def wordFromReader (fuel : Nat) (ts : List Token) :
    Except XmlError (Word × List Token) := do
  let ts ← readTillElementStart "valsi" ts
  let (acc, ts) ← valsiAttrs WordAcc.init ts
  match ts with
  | [] => .error .unexpectedEof
  | Token.elementEndEmpty :: rest => valsiFinalize acc rest
  | Token.elementEndOpen :: rest => valsiChildren fuel acc rest
  | _ => .error .unexpectedToken

/-- The `direction` attribute loop of `Dictionary::from_reader`
(`src/main.rs` lines 68-81): collect `from` and `to`, reject anything
else as an unknown field of `direction`. -/
def directionAttrs : Option String → Option String → List Token →
    Except XmlError ((Option String × Option String) × List Token)
  | f, t, [] => .ok ((f, t), [])
  | f, t, Token.attr k v :: rest =>
      if k = "from" then directionAttrs (some v) t rest
      else if k = "to" then directionAttrs f (some v) rest
      else .error (.unknownField "direction" k)
  | f, t, ts@(Token.elementEndOpen :: _) => .ok ((f, t), ts)
  | f, t, ts@(Token.elementEndClose _ :: _) => .ok ((f, t), ts)
  | f, t, ts@(Token.elementEndEmpty :: _) => .ok ((f, t), ts)
  | _, _, _ => .error .unexpectedToken

/-- The `valsi` loop of the lojban-to-English branch of
`Dictionary::from_reader` (`src/main.rs` lines 96-106): each child must
be a `valsi`, anything else is a missing-field error naming
`lojban-to-english` / `valsi`; the loop ends when `direction` closes. -/
def l2eLoop : Nat → List Word → List Token → Except XmlError (List Word × List Token)
  | 0, _, _ => .error .unexpectedEof
  | _ + 1, ws, [] => .ok (ws, [])
  | fuel + 1, ws, ts@(Token.elementStart tag :: _) =>
      if tag = "valsi" then
        match wordFromReader fuel ts with
        | .ok (w, rest) => l2eLoop fuel (ws ++ [w]) rest
        | .error e => .error e
      else .error (.missingField "lojban-to-english" "valsi")
  | fuel + 1, ws, Token.elementEndClose t :: rest =>
      if t = "direction" then .ok (ws, rest) else l2eLoop fuel ws rest
  | fuel + 1, ws, _ :: rest => l2eLoop fuel ws rest

/-- The `nlword` loop of the English-to-lojban branch of
`Dictionary::from_reader` (`src/main.rs` lines 109-119). -/
def e2lLoop : Nat → List NlWord → List Token → Except XmlError (List NlWord × List Token)
  | 0, _, _ => .error .unexpectedEof
  | _ + 1, ws, [] => .ok (ws, [])
  | fuel + 1, ws, ts@(Token.elementStart tag :: _) =>
      if tag = "nlword" then
        match nlwordFromReader fuel ts with
        | .ok (w, rest) => e2lLoop fuel (ws ++ [w]) rest
        | .error e => .error e
      else .error (.missingField "english-to-lojban" "nlword")
  | fuel + 1, ws, Token.elementEndClose t :: rest =>
      if t = "direction" then .ok (ws, rest) else e2lLoop fuel ws rest
  | fuel + 1, ws, _ :: rest => e2lLoop fuel ws rest

/-- The end of `Dictionary::from_reader` (`src/main.rs` lines 130-143):
both directions must have been populated, reported in declaration order. -/
def dictFinalize (l2e : Option (List Word)) (e2l : Option (List NlWord))
    (rest : List Token) : Except XmlError (Dictionary × List Token) :=
  match l2e with
  | none => .error (.missingField "Dictionary" "lojban to english")
  | some ws =>
    match e2l with
    | none => .error (.missingField "Dictionary" "english to lojban")
    | some ns => .ok ({ lojban_to_english := ws, english_to_lojban := ns }, rest)

/-- The child loop of `Dictionary::from_reader` (`src/main.rs` lines
58-128): only `direction` children are permitted; each direction's
attributes are read, a self-closing direction is an early-end
missing-field error, and the `(from, to)` pair dispatches to the two
inner loops, any other pair being the unknown-direction error; a
repeated direction silently overwrites the previous result. -/
def dictLoop : Nat → Option (List Word) → Option (List NlWord) → List Token →
    Except XmlError (Dictionary × List Token)
  | 0, _, _, _ => .error .unexpectedEof
  | _ + 1, l2e, e2l, [] => dictFinalize l2e e2l []
  | fuel + 1, l2e, e2l, ts@(Token.elementStart tag :: _) =>
      if tag = "direction" then
        match readTillElementStart "direction" ts with
        | .error e => .error e
        | .ok ts1 =>
          match directionAttrs none none ts1 with
          | .error e => .error e
          | .ok ((f, t), ts2) =>
            match ts2 with
            | [] => .error .unexpectedEof
            | tok :: ts3 =>
              if tok = Token.elementEndEmpty then
                .error (.missingField "direction" "early end")
              else
                match f, t with
                | some "lojban", some "English" =>
                  match l2eLoop fuel [] ts3 with
                  | .ok (ws, rest) => dictLoop fuel (some ws) e2l rest
                  | .error e => .error e
                | some "English", some "lojban" =>
                  match e2lLoop fuel [] ts3 with
                  | .ok (ns, rest) => dictLoop fuel l2e (some ns) rest
                  | .error e => .error e
                | _, _ => .error (.unknownField "Dictionary" "unknown direction")
      else .error (.unknownField "Dictionary" tag)
  | fuel + 1, l2e, e2l, Token.elementEndClose t :: rest =>
      if t = "dictionary" then dictFinalize l2e e2l rest
      else dictLoop fuel l2e e2l rest
  | fuel + 1, l2e, e2l, _ :: rest => dictLoop fuel l2e e2l rest

/-- `Dictionary::from_reader` (`src/main.rs` lines 34-144): advance to
the `dictionary` element start, reject its first attribute if any as an
unknown field, reject the self-closing form as an early-end missing
field, then run the child loop. -/
def Dictionary.fromReader (fuel : Nat) (ts : List Token) :
    Except XmlError (Dictionary × List Token) := do
  let ts ← readTillElementStart "dictionary" ts
  match findAttribute ts with
  | .error e => .error e
  | .ok (some (k, _v), _) => .error (.unknownField "Dictionary" k)
  | .ok (none, ts) =>
    match ts with
    | [] => .error .unexpectedEof
    | tok :: rest =>
      if tok = Token.elementEndEmpty then
        .error (.missingField "Dictionary" "early end")
      else dictLoop fuel none none rest

/-- The single operation the core exposes (§6): parse a token stream into
a `Dictionary` or a `ParseError`.  One unit of fuel per remaining token
plus one always suffices, since every loop iteration consumes at least
one token. -/
def parse (ts : List Token) : Except XmlError Dictionary :=
  (Dictionary.fromReader (ts.length + 1) ts).map Prod.fst

/-! ### Documents conforming to the schema of §6

A conforming document is described by an abstract syntax tree; its
canonical token stream (`lin`) lists the elements in the schema's order
with no interleaved text.  Numeric attribute and text values are carried
both as their raw source text and as the number they denote; the
validity predicate ties the two together via `parseU32`. -/

/-- A conforming `user` element. -/
structure CUser where
  username : String
  realname : Option String
deriving DecidableEq

/-- A conforming `glossword` element. -/
structure CGloss where
  word : String
  sense : Option String
deriving DecidableEq

/-- A conforming `keyword` element: `placeRaw` is the source text of the
`place` attribute, `place` the number it denotes. -/
structure CKeyword where
  word : String
  placeRaw : String
  place : Nat
  sense : Option String
deriving DecidableEq

/-- A conforming `valsi` element. -/
structure CValsi where
  word : String
  ty : WordType
  unofficial : Option Bool
  rafsi : List String
  selmaho : Option String
  user : CUser
  definition : String
  defidRaw : String
  defid : Nat
  notes : Option String
  glosses : List CGloss
  keywords : List CKeyword
deriving DecidableEq

/-- A conforming `nlword` element. -/
structure CNlWord where
  word : String
  sense : Option String
  place : Option (String × Nat)
  valsi : String
deriving DecidableEq

/-- A conforming document: one lojban-to-English direction holding the
`valsi` elements in source order, then one English-to-lojban direction
holding the `nlword` elements in source order. -/
structure CDoc where
  words : List CValsi
  nlwords : List CNlWord
deriving DecidableEq

/-- The canonical rendering of a `WordType`, the inverse of the
vocabulary of `WordType::from_str`. -/
def wordTypeToString : WordType → String
  | .buLetteral => "bu-letteral"
  | .cmavo => "cmavo"
  | .cmavoCompound => "cmavo-compound"
  | .cmevla => "cmevla"
  | .experimentalCmavo => "experimental cmavo"
  | .experimentalGismu => "experimental gismu"
  | .fuhivla => "fu\x27ivla"
  | .gismu => "gismu"
  | .lujvo => "lujvo"
  | .obsoleteCmavo => "obsolete cmavo"
  | .obsoleteCmevla => "obsolete cmevla"
  | .obsoleteFuhivla => "obsolete fu\x27ivla"
  | .obsoleteZeiLujvo => "obsolete zei-lujvo"
  | .zeiLujvo => "zei-lujvo"

/-- An optional attribute token. -/
def optAttrTok (k : String) : Option String → List Token
  | none => []
  | some v => [Token.attr k v]

/-- The token rendering of one flattened-text child. -/
def flatTok (tag s : String) : List Token :=
  [Token.elementStart tag, Token.elementEndOpen, Token.text s,
   Token.elementEndClose tag]

/-- The token rendering of an optional flattened-text child. -/
def optFlatTok (tag : String) : Option String → List Token
  | none => []
  | some s => flatTok tag s

/-- Token stream of a conforming `user` element. -/
def CUser.lin (u : CUser) : List Token :=
  [Token.elementStart "user", Token.elementEndOpen]
  ++ flatTok "username" u.username
  ++ optFlatTok "realname" u.realname
  ++ [Token.elementEndClose "user"]

/-- Token stream of a conforming `glossword` element. -/
def CGloss.lin (g : CGloss) : List Token :=
  [Token.elementStart "glossword", Token.attr "word" g.word]
  ++ optAttrTok "sense" g.sense
  ++ [Token.elementEndEmpty]

/-- Token stream of a conforming `keyword` element. -/
def CKeyword.lin (k : CKeyword) : List Token :=
  [Token.elementStart "keyword", Token.attr "word" k.word,
   Token.attr "place" k.placeRaw]
  ++ optAttrTok "sense" k.sense
  ++ [Token.elementEndEmpty]

/-- Token stream of a conforming `valsi` element, children in the order
given by the schema of §6. -/
def CValsi.lin (v : CValsi) : List Token :=
  [Token.elementStart "valsi", Token.attr "word" v.word,
   Token.attr "type" (wordTypeToString v.ty)]
  ++ optAttrTok "unofficial" (v.unofficial.map fun b => if b then "true" else "false")
  ++ [Token.elementEndOpen]
  ++ (v.rafsi.map (flatTok "rafsi")).flatten
  ++ optFlatTok "selmaho" v.selmaho
  ++ v.user.lin
  ++ flatTok "definition" v.definition
  ++ flatTok "definitionid" v.defidRaw
  ++ optFlatTok "notes" v.notes
  ++ (v.glosses.map CGloss.lin).flatten
  ++ (v.keywords.map CKeyword.lin).flatten
  ++ [Token.elementEndClose "valsi"]

/-- Token stream of a conforming `nlword` element. -/
def CNlWord.lin (w : CNlWord) : List Token :=
  [Token.elementStart "nlword", Token.attr "word" w.word]
  ++ optAttrTok "sense" w.sense
  ++ optAttrTok "place" (w.place.map Prod.fst)
  ++ [Token.attr "valsi" w.valsi, Token.elementEndEmpty]

/-- Token stream of a lojban-to-English `direction` element holding the
given `valsi` elements. -/
def l2eLin (ws : List CValsi) : List Token :=
  [Token.elementStart "direction", Token.attr "from" "lojban",
   Token.attr "to" "English", Token.elementEndOpen]
  ++ (ws.map CValsi.lin).flatten
  ++ [Token.elementEndClose "direction"]

/-- Token stream of an English-to-lojban `direction` element holding the
given `nlword` elements. -/
def e2lLin (ns : List CNlWord) : List Token :=
  [Token.elementStart "direction", Token.attr "from" "English",
   Token.attr "to" "lojban", Token.elementEndOpen]
  ++ (ns.map CNlWord.lin).flatten
  ++ [Token.elementEndClose "direction"]

/-- Token stream of a `dictionary` element with the given body. -/
def dictLin (body : List Token) : List Token :=
  [Token.elementStart "dictionary", Token.elementEndOpen]
  ++ body ++ [Token.elementEndClose "dictionary"]

/-- Token stream of a conforming document. -/
def CDoc.lin (d : CDoc) : List Token :=
  dictLin (l2eLin d.words ++ e2lLin d.nlwords)

/-- Validity of a conforming `keyword`: its raw `place` text denotes its
`place` number. -/
def CKeyword.valid (k : CKeyword) : Bool :=
  parseU32 k.placeRaw == some k.place

/-- Validity of a conforming `valsi`: its raw `definitionid` text denotes
its `defid` number and all its keywords are valid. -/
def CValsi.valid (v : CValsi) : Bool :=
  (parseU32 v.defidRaw == some v.defid) && v.keywords.all CKeyword.valid

/-- Validity of a conforming `nlword`: its raw `place` text, when
present, denotes its `place` number. -/
def CNlWord.valid (w : CNlWord) : Bool :=
  w.place.all fun p => parseU32 p.1 == some p.2

/-- Validity of a conforming document. -/
def CDoc.valid (d : CDoc) : Bool :=
  d.words.all CValsi.valid && d.nlwords.all CNlWord.valid

/-- The `User` a conforming `user` element denotes. -/
def CUser.toUser (u : CUser) : User :=
  ⟨u.username, u.realname⟩

/-- The `GlossWord` a conforming `glossword` element denotes. -/
def CGloss.toGlossWord (g : CGloss) : GlossWord :=
  ⟨g.word, g.sense⟩

/-- The `Keyword` a conforming `keyword` element denotes. -/
def CKeyword.toKeyword (k : CKeyword) : Keyword :=
  ⟨k.word, k.place, k.sense⟩

/-- The `Word` a conforming `valsi` element denotes. -/
def CValsi.toWord (v : CValsi) : Word :=
  ⟨v.word, v.ty, v.unofficial.getD false, v.rafsi, v.selmaho,
   v.user.toUser, v.definition, v.defid, v.notes,
   v.glosses.map CGloss.toGlossWord, v.keywords.map CKeyword.toKeyword⟩

/-- The `NlWord` a conforming `nlword` element denotes. -/
def CNlWord.toNlWord (w : CNlWord) : NlWord :=
  ⟨w.word, w.sense, w.place.map Prod.snd, w.valsi⟩

/-- One when the option holds a value, zero otherwise. -/
def optCount : Option α → Nat
  | none => 0
  | some _ => 1

/-- Fuel consumed by the child loop of the `Word` reader on a conforming
`valsi` element: one unit per direct child plus one for the closing tag. -/
def vCost (v : CValsi) : Nat :=
  v.rafsi.length + optCount v.selmaho + 3 + optCount v.notes
    + v.glosses.length + v.keywords.length + 1

/-- Fuel consumed by the `valsi` loop on a conforming direction body. -/
def wsCost (ws : List CValsi) : Nat :=
  (ws.map fun v => vCost v + 1).sum + 1

/-- Fuel consumed by the `nlword` loop on a conforming direction body. -/
def nsCost (ns : List CNlWord) : Nat :=
  ns.length + 1

/-- The number of element-start events with the given name in a token
stream (for `valsi` and `nlword`, the number of such elements in a
conforming document). -/
def countTag (tag : String) (ts : List Token) : Nat :=
  ts.countP fun t =>
    match t with
    | Token.elementStart n => n = tag
    | _ => false

/-! ### Reader correctness on conforming token streams -/

theorem fromStr_toString (t : WordType) :
    WordType.fromStr (wordTypeToString t) = .ok t := by
  cases t <;> rfl

theorem glossFromReader_ok (g : CGloss) (fuel : Nat) (ts : List Token) :
    glossFromReader fuel (g.lin ++ ts) = .ok (g.toGlossWord, ts) := by
  cases g with
  | mk w s => cases s <;> rfl

theorem keywordFromReader_ok (k : CKeyword) (hk : k.valid = true)
    (fuel : Nat) (ts : List Token) :
    keywordFromReader fuel (k.lin ++ ts) = .ok (k.toKeyword, ts) := by
  simp only [CKeyword.valid, beq_iff_eq] at hk
  cases k with
  | mk w pr p s =>
    simp only at hk
    cases s <;>
      simp [CKeyword.lin, CKeyword.toKeyword, keywordFromReader,
        readTillElementStart, keywordAttrs, keywordFinalize, req,
        optAttrTok, hk, Except.bind, bind]

theorem nlwordFromReader_ok (w : CNlWord) (hw : w.valid = true)
    (fuel : Nat) (ts : List Token) :
    nlwordFromReader fuel (w.lin ++ ts) = .ok (w.toNlWord, ts) := by
  cases w with
  | mk wd s p va =>
    cases s <;> cases p <;>
      simp_all [CNlWord.valid, CNlWord.lin, CNlWord.toNlWord,
        nlwordFromReader, readTillElementStart, nlwordAttrs,
        nlwordFinalize, req, optAttrTok, Option.all, Except.bind, bind]

theorem userFromReader_ok (u : CUser) (fuel : Nat) (ts : List Token) :
    userFromReader (fuel + 3) (u.lin ++ ts) = .ok (u.toUser, ts) := by
  cases u with
  | mk un rn => cases rn <;> rfl

theorem userFromReader_ok_of_le (u : CUser) (fuel : Nat) (h : 3 ≤ fuel)
    (ts : List Token) : userFromReader fuel (u.lin ++ ts) = .ok (u.toUser, ts) := by
  obtain ⟨f, rfl⟩ : ∃ f, fuel = f + 3 := ⟨fuel - 3, by omega⟩
  exact userFromReader_ok u f ts

/-! ### Steps of the `Word` child loop -/

theorem valsiChildren_rafsi (f : Nat) (acc : WordAcc) (s : String) (ts : List Token) :
    valsiChildren (f + 1) acc (flatTok "rafsi" s ++ ts)
      = valsiChildren f { acc with rafsi := acc.rafsi ++ [s] } ts := rfl

theorem valsiChildren_selmaho (f : Nat) (acc : WordAcc) (s : String) (ts : List Token) :
    valsiChildren (f + 1) acc (flatTok "selmaho" s ++ ts)
      = valsiChildren f { acc with selmaho := some s } ts := rfl

theorem valsiChildren_definition (f : Nat) (acc : WordAcc) (s : String) (ts : List Token) :
    valsiChildren (f + 1) acc (flatTok "definition" s ++ ts)
      = valsiChildren f { acc with definition := some s } ts := rfl

theorem valsiChildren_notes (f : Nat) (acc : WordAcc) (s : String) (ts : List Token) :
    valsiChildren (f + 1) acc (flatTok "notes" s ++ ts)
      = valsiChildren f { acc with notes := some s } ts := rfl

theorem valsiChildren_close (f : Nat) (acc : WordAcc) (ts : List Token) :
    valsiChildren (f + 1) acc (Token.elementEndClose "valsi" :: ts)
      = valsiFinalize acc ts := rfl

theorem valsiChildren_definitionid (f : Nat) (acc : WordAcc) (dr : String)
    (d : Nat) (hd : parseU32 dr = some d) (ts : List Token) :
    valsiChildren (f + 1) acc (flatTok "definitionid" dr ++ ts)
      = valsiChildren f { acc with definition_id := some d } ts := by
  simp [flatTok, valsiChildren, readFlattenText, hd]

theorem valsiChildren_user (f : Nat) (h : 3 ≤ f) (acc : WordAcc) (u : CUser)
    (ts : List Token) :
    valsiChildren (f + 1) acc (u.lin ++ ts)
      = valsiChildren f { acc with user := some u.toUser } ts := by
  have hu := userFromReader_ok_of_le u f h ts
  simp only [CUser.lin, List.append_assoc, List.cons_append, List.nil_append] at hu ⊢
  simp [valsiChildren, hu]

theorem valsiChildren_gloss (f : Nat) (acc : WordAcc) (g : CGloss)
    (ts : List Token) :
    valsiChildren (f + 1) acc (g.lin ++ ts)
      = valsiChildren f { acc with glosses := acc.glosses ++ [g.toGlossWord] } ts := by
  have hg := glossFromReader_ok g f ts
  simp only [CGloss.lin, List.append_assoc, List.cons_append, List.nil_append] at hg ⊢
  simp [valsiChildren, hg]

theorem valsiChildren_keyword (f : Nat) (acc : WordAcc) (k : CKeyword)
    (hk : k.valid = true) (ts : List Token) :
    valsiChildren (f + 1) acc (k.lin ++ ts)
      = valsiChildren f { acc with keywords := acc.keywords ++ [k.toKeyword] } ts := by
  have hkk := keywordFromReader_ok k hk f ts
  simp only [CKeyword.lin, List.append_assoc, List.cons_append, List.nil_append] at hkk ⊢
  simp [valsiChildren, hkk]

theorem valsiChildren_rafsiSeg (rs : List String) :
    ∀ (acc : WordAcc) (ts : List Token) (f : Nat),
    valsiChildren (rs.length + f) acc ((rs.map (flatTok "rafsi")).flatten ++ ts)
      = valsiChildren f { acc with rafsi := acc.rafsi ++ rs } ts := by
  induction rs with
  | nil => intro acc ts f; simp
  | cons r rs ih =>
    intro acc ts f
    rw [show (r :: rs).length + f = (rs.length + f) + 1 from by
      simp [Nat.add_right_comm]]
    simp only [List.map_cons, List.flatten_cons, List.append_assoc]
    rw [valsiChildren_rafsi, ih]
    simp [List.append_assoc]

theorem valsiChildren_glossSeg (gs : List CGloss) :
    ∀ (acc : WordAcc) (ts : List Token) (f : Nat),
    valsiChildren (gs.length + f) acc ((gs.map CGloss.lin).flatten ++ ts)
      = valsiChildren f
          { acc with glosses := acc.glosses ++ gs.map CGloss.toGlossWord } ts := by
  induction gs with
  | nil => intro acc ts f; simp
  | cons g gs ih =>
    intro acc ts f
    rw [show (g :: gs).length + f = (gs.length + f) + 1 from by
      simp [Nat.add_right_comm]]
    simp only [List.map_cons, List.flatten_cons, List.append_assoc]
    rw [valsiChildren_gloss, ih]
    simp [List.append_assoc]

theorem valsiChildren_keywordSeg (ks : List CKeyword)
    (hks : ks.all CKeyword.valid = true) :
    ∀ (acc : WordAcc) (ts : List Token) (f : Nat),
    valsiChildren (ks.length + f) acc ((ks.map CKeyword.lin).flatten ++ ts)
      = valsiChildren f
          { acc with keywords := acc.keywords ++ ks.map CKeyword.toKeyword } ts := by
  induction ks with
  | nil => intro acc ts f; simp
  | cons k ks ih =>
    simp only [List.all_cons, Bool.and_eq_true] at hks
    intro acc ts f
    rw [show (k :: ks).length + f = (ks.length + f) + 1 from by
      simp [Nat.add_right_comm]]
    simp only [List.map_cons, List.flatten_cons, List.append_assoc]
    rw [valsiChildren_keyword _ _ _ hks.1, ih hks.2]
    simp [List.append_assoc]

theorem valsiChildren_selmahoOpt (o : Option String) (acc : WordAcc)
    (ts : List Token) (f : Nat) :
    valsiChildren (optCount o + f) acc (optFlatTok "selmaho" o ++ ts)
      = valsiChildren f { acc with selmaho := o.or acc.selmaho } ts := by
  cases o with
  | none => simp [optCount, optFlatTok, Option.or]
  | some s =>
    rw [show optCount (some s) + f = f + 1 from by simp [optCount, Nat.add_comm]]
    exact valsiChildren_selmaho f acc s ts

theorem valsiChildren_notesOpt (o : Option String) (acc : WordAcc)
    (ts : List Token) (f : Nat) :
    valsiChildren (optCount o + f) acc (optFlatTok "notes" o ++ ts)
      = valsiChildren f { acc with notes := o.or acc.notes } ts := by
  cases o with
  | none => simp [optCount, optFlatTok, Option.or]
  | some s =>
    rw [show optCount (some s) + f = f + 1 from by simp [optCount, Nat.add_comm]]
    exact valsiChildren_notes f acc s ts

/-- The accumulator state of the `Word` reader after its attribute
phase on a conforming `valsi` element. -/
def accAfterAttrs (v : CValsi) : WordAcc :=
  ⟨some v.word, some v.ty, v.unofficial, [], none, none, none, none, none, [], []⟩

/-- The children part of the token stream of a conforming `valsi`. -/
def valsiBodyLin (v : CValsi) : List Token :=
  (v.rafsi.map (flatTok "rafsi")).flatten
  ++ optFlatTok "selmaho" v.selmaho
  ++ v.user.lin
  ++ flatTok "definition" v.definition
  ++ flatTok "definitionid" v.defidRaw
  ++ optFlatTok "notes" v.notes
  ++ (v.glosses.map CGloss.lin).flatten
  ++ (v.keywords.map CKeyword.lin).flatten
  ++ [Token.elementEndClose "valsi"]

theorem valsiChildren_body (v : CValsi) (hd : parseU32 v.defidRaw = some v.defid)
    (hks : v.keywords.all CKeyword.valid = true) (f : Nat) (ts : List Token) :
    valsiChildren (vCost v + f) (accAfterAttrs v) (valsiBodyLin v ++ ts)
      = .ok (v.toWord, ts) := by
  rw [show vCost v + f
        = v.rafsi.length + (optCount v.selmaho + (1 + (1 + (1
            + (optCount v.notes + (v.glosses.length + (v.keywords.length
            + (1 + f)))))))) from by simp [vCost]; omega]
  simp only [valsiBodyLin, List.append_assoc, accAfterAttrs]
  rw [valsiChildren_rafsiSeg]
  dsimp only
  rw [valsiChildren_selmahoOpt]
  dsimp only
  rw [Nat.add_comm 1 (1 + (1 + (optCount v.notes + (v.glosses.length
        + (v.keywords.length + (1 + f))))))]
  rw [valsiChildren_user _ (by omega)]
  dsimp only
  rw [Nat.add_comm 1 (1 + (optCount v.notes + (v.glosses.length
        + (v.keywords.length + (1 + f)))))]
  rw [valsiChildren_definition]
  dsimp only
  rw [Nat.add_comm 1 (optCount v.notes + (v.glosses.length
        + (v.keywords.length + (1 + f))))]
  rw [valsiChildren_definitionid _ _ _ _ hd]
  dsimp only
  rw [valsiChildren_notesOpt]
  dsimp only
  rw [valsiChildren_glossSeg]
  dsimp only
  rw [valsiChildren_keywordSeg _ hks]
  dsimp only
  rw [Nat.add_comm 1 f]
  simp only [List.singleton_append]
  rw [valsiChildren_close]
  simp [valsiFinalize, req, CValsi.toWord, Except.bind, bind]

theorem wordFromReader_ok (v : CValsi) (hv : v.valid = true) (f : Nat)
    (ts : List Token) :
    wordFromReader (vCost v + f) (v.lin ++ ts) = .ok (v.toWord, ts) := by
  simp only [CValsi.valid, Bool.and_eq_true, beq_iff_eq] at hv
  have hb := valsiChildren_body v hv.1 hv.2 f ts
  obtain ⟨w, vty, uo, rf, sm, us, df, dr, di, nt, gs, ks⟩ := v
  simp only [CValsi.lin, valsiBodyLin, accAfterAttrs, List.append_assoc,
    List.cons_append, List.nil_append] at hb ⊢
  cases uo with
  | none =>
    simp only [Option.map_none', optAttrTok, List.nil_append] at hb ⊢
    simpa [wordFromReader, readTillElementStart, valsiAttrs,
      fromStr_toString, Except.bind, bind, WordAcc.init] using hb
  | some b =>
    cases b <;>
      simpa [wordFromReader, readTillElementStart, valsiAttrs, optAttrTok,
        fromStr_toString, parseBool, Except.bind, bind, WordAcc.init] using hb

/-! ### The direction loops on conforming bodies -/

theorem l2eLoop_ok (ws : List CValsi) :
    ∀ (hws : ws.all CValsi.valid = true) (acc : List Word) (ts : List Token)
      (f : Nat),
    l2eLoop (wsCost ws + f) acc
        ((ws.map CValsi.lin).flatten ++ Token.elementEndClose "direction" :: ts)
      = .ok (acc ++ ws.map CValsi.toWord, ts) := by
  induction ws with
  | nil =>
    intro _ acc ts f
    rw [show wsCost [] + f = f + 1 from by simp [wsCost]; omega]
    simp [l2eLoop]
  | cons v ws ih =>
    intro hws acc ts f
    simp only [List.all_cons, Bool.and_eq_true] at hws
    have hw := wordFromReader_ok v hws.1 (wsCost ws + f)
      ((ws.map CValsi.lin).flatten ++ Token.elementEndClose "direction" :: ts)
    rw [show wsCost (v :: ws) + f = (vCost v + (wsCost ws + f)) + 1 from by
      simp [wsCost]; omega]
    simp only [List.map_cons, List.flatten_cons, List.append_assoc]
    simp only [CValsi.lin, List.append_assoc, List.cons_append,
      List.nil_append] at hw ⊢
    simp only [l2eLoop, hw]
    rw [show vCost v + (wsCost ws + f) = wsCost ws + (f + vCost v) from by omega]
    rw [ih hws.2 (acc ++ [v.toWord]) ts (f + vCost v)]
    simp

theorem e2lLoop_ok (ns : List CNlWord) :
    ∀ (hns : ns.all CNlWord.valid = true) (acc : List NlWord) (ts : List Token)
      (f : Nat),
    e2lLoop (nsCost ns + f) acc
        ((ns.map CNlWord.lin).flatten ++ Token.elementEndClose "direction" :: ts)
      = .ok (acc ++ ns.map CNlWord.toNlWord, ts) := by
  induction ns with
  | nil =>
    intro _ acc ts f
    rw [show nsCost [] + f = f + 1 from by simp [nsCost]; omega]
    simp [e2lLoop]
  | cons n ns ih =>
    intro hns acc ts f
    simp only [List.all_cons, Bool.and_eq_true] at hns
    have hn := nlwordFromReader_ok n hns.1 (nsCost ns + f)
      ((ns.map CNlWord.lin).flatten ++ Token.elementEndClose "direction" :: ts)
    rw [show nsCost (n :: ns) + f = (nsCost ns + f) + 1 from by
      simp [nsCost]; omega]
    simp only [List.map_cons, List.flatten_cons, List.append_assoc]
    simp only [CNlWord.lin, List.append_assoc, List.cons_append,
      List.nil_append] at hn ⊢
    simp only [e2lLoop, hn]
    rw [ih hns.2 (acc ++ [n.toNlWord]) ts f]
    simp

/-! ### The dictionary child loop on conforming direction blocks -/

theorem dictLoop_l2e (ws : List CValsi) (hws : ws.all CValsi.valid = true)
    (l2e : Option (List Word)) (e2l : Option (List NlWord)) (ts : List Token)
    (f : Nat) :
    dictLoop ((wsCost ws + f) + 1) l2e e2l (l2eLin ws ++ ts)
      = dictLoop (wsCost ws + f) (some (ws.map CValsi.toWord)) e2l ts := by
  have hl := l2eLoop_ok ws hws [] ts f
  simp only [l2eLin, List.append_assoc, List.cons_append, List.nil_append] at hl ⊢
  simp [dictLoop, readTillElementStart, directionAttrs, hl]

theorem dictLoop_e2l (ns : List CNlWord) (hns : ns.all CNlWord.valid = true)
    (l2e : Option (List Word)) (e2l : Option (List NlWord)) (ts : List Token)
    (f : Nat) :
    dictLoop ((nsCost ns + f) + 1) l2e e2l (e2lLin ns ++ ts)
      = dictLoop (nsCost ns + f) l2e (some (ns.map CNlWord.toNlWord)) ts := by
  have he := e2lLoop_ok ns hns [] ts f
  simp only [e2lLin, List.append_assoc, List.cons_append, List.nil_append] at he ⊢
  simp [dictLoop, readTillElementStart, directionAttrs, he]

theorem dictLoop_close (f : Nat) (l2e : Option (List Word))
    (e2l : Option (List NlWord)) (ts : List Token) :
    dictLoop (f + 1) l2e e2l (Token.elementEndClose "dictionary" :: ts)
      = dictFinalize l2e e2l ts := rfl

theorem fromReader_dictLin (f : Nat) (body ts : List Token) :
    Dictionary.fromReader f (dictLin body ++ ts)
      = dictLoop f none none (body ++ Token.elementEndClose "dictionary" :: ts) := by
  simp [dictLin, Dictionary.fromReader, readTillElementStart, findAttribute,
    Except.bind, bind, List.append_assoc]

/-- Fuel consumed by `Dictionary.fromReader` on a conforming document. -/
def dCost (d : CDoc) : Nat :=
  wsCost d.words + nsCost d.nlwords + 2

theorem fromReader_doc (d : CDoc) (h : d.valid = true) (f : Nat)
    (ts : List Token) :
    Dictionary.fromReader (dCost d + f) (d.lin ++ ts)
      = .ok (⟨d.words.map CValsi.toWord, d.nlwords.map CNlWord.toNlWord⟩, ts) := by
  simp only [CDoc.valid, Bool.and_eq_true] at h
  rw [CDoc.lin, fromReader_dictLin]
  simp only [List.append_assoc]
  rw [show dCost d + f = (wsCost d.words + ((nsCost d.nlwords + f) + 1)) + 1
    from by simp [dCost]; omega]
  rw [dictLoop_l2e _ h.1]
  rw [show wsCost d.words + ((nsCost d.nlwords + f) + 1)
      = (nsCost d.nlwords + (f + wsCost d.words)) + 1 from by omega]
  rw [dictLoop_e2l _ h.2]
  rw [show nsCost d.nlwords + (f + wsCost d.words)
      = (d.nlwords.length + (f + wsCost d.words)) + 1 from by
    simp only [nsCost]; omega]
  rw [dictLoop_close]
  simp [dictFinalize]

/-! ### Fuel adequacy: the default fuel of `parse` covers any conforming
document -/

theorem length_flatTok (tag s : String) : (flatTok tag s).length = 4 := rfl

theorem length_optFlatTok (tag : String) (o : Option String) :
    (optFlatTok tag o).length = 4 * optCount o := by
  cases o <;> rfl

theorem length_rafsiLin (rs : List String) :
    ((rs.map (flatTok "rafsi")).flatten).length = 4 * rs.length := by
  induction rs with
  | nil => rfl
  | cons r rs ih => simp [ih, length_flatTok]; omega

theorem length_glossLin_ge (gs : List CGloss) :
    gs.length ≤ ((gs.map CGloss.lin).flatten).length := by
  induction gs with
  | nil => simp
  | cons g gs ih =>
    have : 3 ≤ (CGloss.lin g).length := by
      cases hg : g.sense <;> simp [CGloss.lin, hg, optAttrTok]
    simp only [List.map_cons, List.flatten_cons, List.length_append,
      List.length_cons]
    omega

theorem length_keywordLin_ge (ks : List CKeyword) :
    ks.length ≤ ((ks.map CKeyword.lin).flatten).length := by
  induction ks with
  | nil => simp
  | cons k ks ih =>
    have : 4 ≤ (CKeyword.lin k).length := by
      cases hk : k.sense <;> simp [CKeyword.lin, hk, optAttrTok]
    simp only [List.map_cons, List.flatten_cons, List.length_append,
      List.length_cons]
    omega

theorem length_nlwordLin_ge (ns : List CNlWord) :
    ns.length ≤ ((ns.map CNlWord.lin).flatten).length := by
  induction ns with
  | nil => simp
  | cons n ns ih =>
    have : 4 ≤ (CNlWord.lin n).length := by
      cases hs : n.sense <;> cases hp : n.place <;>
        simp [CNlWord.lin, hs, hp, optAttrTok]
    simp only [List.map_cons, List.flatten_cons, List.length_append,
      List.length_cons]
    omega

theorem vCost_lt_length (v : CValsi) : vCost v + 1 ≤ (CValsi.lin v).length := by
  have h1 := length_rafsiLin v.rafsi
  have h2 := length_glossLin_ge v.glosses
  have h3 := length_keywordLin_ge v.keywords
  have h4 : 7 ≤ (CUser.lin v.user).length := by
    cases hr : v.user.realname <;> simp [CUser.lin, hr, optFlatTok, flatTok]
  have h5 := length_optFlatTok "selmaho" v.selmaho
  have h6 := length_optFlatTok "notes" v.notes
  simp only [CValsi.lin, vCost, List.length_append, List.length_cons,
    length_flatTok]
  omega

theorem wsCost_le_length (ws : List CValsi) :
    wsCost ws + 4 ≤ (l2eLin ws).length := by
  have : (ws.map fun v => vCost v + 1).sum ≤ ((ws.map CValsi.lin).flatten).length := by
    induction ws with
    | nil => simp
    | cons v ws ih =>
      have := vCost_lt_length v
      simp only [List.map_cons, List.sum_cons, List.flatten_cons,
        List.length_append]
      omega
  simp only [wsCost, l2eLin, List.length_append, List.length_cons]
  omega

theorem nsCost_le_length (ns : List CNlWord) :
    nsCost ns + 4 ≤ (e2lLin ns).length := by
  have := length_nlwordLin_ge ns
  simp only [nsCost, e2lLin, List.length_append, List.length_cons]
  omega

theorem dCost_le_length (d : CDoc) : dCost d ≤ (d.lin).length + 1 := by
  have h1 := wsCost_le_length d.words
  have h2 := nsCost_le_length d.nlwords
  simp only [dCost, CDoc.lin, dictLin, List.length_append, List.length_cons]
  omega

theorem parse_doc (d : CDoc) (h : d.valid = true) :
    parse d.lin
      = .ok ⟨d.words.map CValsi.toWord, d.nlwords.map CNlWord.toNlWord⟩ := by
  obtain ⟨f, hf⟩ : ∃ f, d.lin.length + 1 = dCost d + f :=
    ⟨d.lin.length + 1 - dCost d, by have := dCost_le_length d; omega⟩
  have hr := fromReader_doc d h f []
  rw [List.append_nil] at hr
  rw [parse, hf, hr]
  rfl

/-! ### Counting the `valsi` and `nlword` elements of a conforming
document in its token stream -/

theorem countTag_append (t : String) (a b : List Token) :
    countTag t (a ++ b) = countTag t a + countTag t b := by
  simp [countTag, List.countP_append]

theorem countTag_flatTok (t tag s : String) :
    countTag t (flatTok tag s) = if tag = t then 1 else 0 := by
  simp [countTag, flatTok, List.countP_cons, List.countP_nil]

theorem countTag_optFlatTok (t tag : String) (o : Option String) :
    countTag t (optFlatTok tag o) = optCount o * (if tag = t then 1 else 0) := by
  cases o with
  | none => simp [optFlatTok, optCount, countTag]
  | some s => simp [optFlatTok, optCount, countTag_flatTok]

theorem countTag_optAttrTok (t k : String) (o : Option String) :
    countTag t (optAttrTok k o) = 0 := by
  cases o <;> simp [optAttrTok, countTag, List.countP_cons, List.countP_nil]

theorem countTag_userLin (t : String) (u : CUser) (hu : "user" ≠ t)
    (hn : "username" ≠ t) (hr : "realname" ≠ t) :
    countTag t (CUser.lin u) = 0 := by
  have h1 := countTag_flatTok t "username" u.username
  have h2 := countTag_optFlatTok t "realname" u.realname
  simp only [CUser.lin, countTag_append, countTag, List.countP_cons] at h1 h2 ⊢
  simp_all [hu, hn, hr]

theorem countTag_glossLin (t : String) (g : CGloss) (h : "glossword" ≠ t) :
    countTag t (CGloss.lin g) = 0 := by
  cases hs : g.sense <;>
    simp [CGloss.lin, optAttrTok, hs, countTag, List.countP_cons,
      List.countP_nil, h]

theorem countTag_keywordLin (t : String) (k : CKeyword) (h : "keyword" ≠ t) :
    countTag t (CKeyword.lin k) = 0 := by
  cases hs : k.sense <;>
    simp [CKeyword.lin, optAttrTok, hs, countTag, List.countP_cons,
      List.countP_nil, h]

theorem countTag_rafsiSeg (t : String) (rs : List String) (h : "rafsi" ≠ t) :
    countTag t ((rs.map (flatTok "rafsi")).flatten) = 0 := by
  induction rs with
  | nil => simp [countTag]
  | cons r rs ih =>
    have := countTag_flatTok t "rafsi" r
    simp only [List.map_cons, List.flatten_cons, countTag_append]
    simp_all [h]

theorem countTag_glossSeg (t : String) (gs : List CGloss) (h : "glossword" ≠ t) :
    countTag t ((gs.map CGloss.lin).flatten) = 0 := by
  induction gs with
  | nil => simp [countTag]
  | cons g gs ih =>
    simp only [List.map_cons, List.flatten_cons, countTag_append]
    simp_all [countTag_glossLin t g h]

theorem countTag_keywordSeg (t : String) (ks : List CKeyword) (h : "keyword" ≠ t) :
    countTag t ((ks.map CKeyword.lin).flatten) = 0 := by
  induction ks with
  | nil => simp [countTag]
  | cons k ks ih =>
    simp only [List.map_cons, List.flatten_cons, countTag_append]
    simp_all [countTag_keywordLin t k h]

theorem countTag_valsiLin (t : String) (v : CValsi) (hv : "valsi" = t)
    (h1 : "rafsi" ≠ t) (h2 : "selmaho" ≠ t) (h3 : "user" ≠ t)
    (h4 : "username" ≠ t) (h5 : "realname" ≠ t) (h6 : "definition" ≠ t)
    (h7 : "definitionid" ≠ t) (h8 : "notes" ≠ t) (h9 : "glossword" ≠ t)
    (h10 : "keyword" ≠ t) :
    countTag t (CValsi.lin v) = 1 := by
  have e1 := countTag_rafsiSeg t v.rafsi h1
  have e2 := countTag_optFlatTok t "selmaho" v.selmaho
  have e3 := countTag_userLin t v.user h3 h4 h5
  have e4 := countTag_flatTok t "definition" v.definition
  have e5 := countTag_flatTok t "definitionid" v.defidRaw
  have e6 := countTag_optFlatTok t "notes" v.notes
  have e7 := countTag_glossSeg t v.glosses h9
  have e8 := countTag_keywordSeg t v.keywords h10
  have e9 := countTag_optAttrTok t "unofficial"
    (v.unofficial.map fun b => if b then "true" else "false")
  simp only [CValsi.lin, List.append_assoc, List.cons_append, List.nil_append]
  simp only [countTag, List.countP_cons, List.countP_append] at *
  simp_all [hv, h2, h6, h7, h8]

theorem countTag_valsiLin_zero (v : CValsi) :
    countTag "nlword" (CValsi.lin v) = 0 := by
  have e1 := countTag_rafsiSeg "nlword" v.rafsi (by decide)
  have e2 := countTag_optFlatTok "nlword" "selmaho" v.selmaho
  have e3 := countTag_userLin "nlword" v.user (by decide) (by decide) (by decide)
  have e4 := countTag_flatTok "nlword" "definition" v.definition
  have e5 := countTag_flatTok "nlword" "definitionid" v.defidRaw
  have e6 := countTag_optFlatTok "nlword" "notes" v.notes
  have e7 := countTag_glossSeg "nlword" v.glosses (by decide)
  have e8 := countTag_keywordSeg "nlword" v.keywords (by decide)
  have e9 := countTag_optAttrTok "nlword" "unofficial"
    (v.unofficial.map fun b => if b then "true" else "false")
  simp only [CValsi.lin, List.append_assoc, List.cons_append, List.nil_append]
  simp only [countTag, List.countP_cons, List.countP_append] at *
  simp_all

theorem countTag_nlwordLin (w : CNlWord) :
    countTag "nlword" (CNlWord.lin w) = 1 ∧ countTag "valsi" (CNlWord.lin w) = 0 := by
  cases hs : w.sense <;> cases hp : w.place <;>
    simp [CNlWord.lin, optAttrTok, hs, hp, countTag, List.countP_cons,
      List.countP_nil]

theorem countTag_valsi_doc (d : CDoc) :
    countTag "valsi" d.lin = d.words.length := by
  have hw : countTag "valsi" ((d.words.map CValsi.lin).flatten)
      = d.words.length := by
    induction d.words with
    | nil => simp [countTag]
    | cons v vs ih =>
      have := countTag_valsiLin "valsi" v rfl (by decide) (by decide) (by decide)
        (by decide) (by decide) (by decide) (by decide) (by decide) (by decide)
        (by decide)
      simp only [List.map_cons, List.flatten_cons, countTag_append,
        List.length_cons]
      omega
  have hn : countTag "valsi" ((d.nlwords.map CNlWord.lin).flatten) = 0 := by
    induction d.nlwords with
    | nil => simp [countTag]
    | cons n ns ih =>
      have := (countTag_nlwordLin n).2
      simp only [List.map_cons, List.flatten_cons, countTag_append]
      omega
  simp only [CDoc.lin, dictLin, l2eLin, e2lLin, List.append_assoc,
    List.cons_append, List.nil_append]
  simp only [countTag, List.countP_cons, List.countP_append] at *
  simp_all

theorem countTag_nlword_doc (d : CDoc) :
    countTag "nlword" d.lin = d.nlwords.length := by
  have hw : countTag "nlword" ((d.words.map CValsi.lin).flatten) = 0 := by
    induction d.words with
    | nil => simp [countTag]
    | cons v vs ih =>
      have := countTag_valsiLin_zero v
      simp only [List.map_cons, List.flatten_cons, countTag_append]
      omega
  have hn : countTag "nlword" ((d.nlwords.map CNlWord.lin).flatten)
      = d.nlwords.length := by
    induction d.nlwords with
    | nil => simp [countTag]
    | cons n ns ih =>
      have := (countTag_nlwordLin n).1
      simp only [List.map_cons, List.flatten_cons, countTag_append,
        List.length_cons]
      omega
  simp only [CDoc.lin, dictLin, l2eLin, e2lLin, List.append_assoc,
    List.cons_append, List.nil_append]
  simp only [countTag, List.countP_cons, List.countP_append] at *
  simp_all

/-! ### Sample conforming data used by the witnesses -/

/-- A sample conforming `user` element. -/
def sampleUser : CUser := ⟨"officialdata", some "Official Data"⟩

/-- A sample conforming `valsi` element exercising every field. -/
def sampleValsi : CValsi :=
  ⟨"donri", WordType.gismu, some true, ["dor", "doi"], some "SE", sampleUser,
   "daytime", "37", 37, some "a note", [⟨"day", some "portion"⟩],
   [⟨"daytime", "2", 2, none⟩]⟩

/-- A sample conforming `nlword` element. -/
def sampleNlWord : CNlWord := ⟨"day", some "portion", some ("1", 1), "donri"⟩

/-- A sample conforming document. -/
def sampleDoc : CDoc := ⟨[sampleValsi], [sampleNlWord]⟩

/-! ### The claims -/

/-- Claim C1: for every XML document conforming to the schema in §6
(rendered as its canonical token stream), `parse` succeeds and returns a
`Dictionary` whose `lojban_to_english` sequence is exactly the `valsi`
elements in source order — hence of length equal to the number of `valsi`
elements in the document — and whose `english_to_lojban` sequence is
exactly the `nlword` elements in source order, of length equal to the
number of `nlword` elements. -/
theorem claim1_parse_conforming (d : CDoc) (h : d.valid = true) :
    parse d.lin
        = .ok ⟨d.words.map CValsi.toWord, d.nlwords.map CNlWord.toNlWord⟩
      ∧ (d.words.map CValsi.toWord).length = countTag "valsi" d.lin
      ∧ (d.nlwords.map CNlWord.toNlWord).length = countTag "nlword" d.lin := by
  refine ⟨parse_doc d h, ?_, ?_⟩
  · simp [countTag_valsi_doc]
  · simp [countTag_nlword_doc]

/-- Witness for C1 at a concrete conforming document. -/
theorem claim1_witness :
    sampleDoc.valid = true
      ∧ parse sampleDoc.lin
          = .ok ⟨sampleDoc.words.map CValsi.toWord,
                 sampleDoc.nlwords.map CNlWord.toNlWord⟩ :=
  ⟨by decide, (claim1_parse_conforming sampleDoc (by decide)).1⟩

/-- Variant of `fromReader_dictLin` with nothing after the document. -/
theorem fromReader_dictLin2 (f : Nat) (body : List Token) :
    Dictionary.fromReader f (dictLin body)
      = dictLoop f none none (body ++ [Token.elementEndClose "dictionary"]) := by
  have h := fromReader_dictLin f body []
  simpa using h

/-- Claim C2 (amended): for every record type, a required field that has
not appeared when the element closes makes the parse fail with a
`MissingField` error naming the record and the field — shown for the
`Dictionary` record's two direction fields, and at record level for a
`valsi` lacking `definitionid`, a `user` lacking `username`, a `keyword`
lacking `place`, an `nlword` lacking `valsi` and a `glossword` lacking
`word`; in particular a document containing only the lojban-to-English
direction fails naming `Dictionary` / english-to-lojban and vice versa.
(The original "exactly once" is not enforced: a repeated required
direction child is accepted, last parse winning — see the
counterexample.) -/
theorem claim2_missing_direction :
    (∀ ws : List CValsi, ws.all CValsi.valid = true →
      parse (dictLin (l2eLin ws))
        = .error (.missingField "Dictionary" "english to lojban"))
    ∧ (∀ ns : List CNlWord, ns.all CNlWord.valid = true →
      parse (dictLin (e2lLin ns))
        = .error (.missingField "Dictionary" "lojban to english"))
    ∧ (∀ (f : Nat) (w u d : String) (ts : List Token),
      wordFromReader (f + 4) (Token.elementStart "valsi"
          :: Token.attr "word" w :: Token.attr "type" "gismu"
          :: Token.elementEndOpen
          :: Token.elementStart "user" :: Token.elementEndOpen
          :: Token.elementStart "username" :: Token.elementEndOpen
          :: Token.text u :: Token.elementEndClose "username"
          :: Token.elementEndClose "user"
          :: Token.elementStart "definition" :: Token.elementEndOpen
          :: Token.text d :: Token.elementEndClose "definition"
          :: Token.elementEndClose "valsi" :: ts)
        = .error (.missingField "valsi" "definitionid"))
    ∧ (∀ (f : Nat) (ts : List Token),
      userFromReader (f + 1) (Token.elementStart "user"
          :: Token.elementEndOpen :: Token.elementEndClose "user" :: ts)
        = .error (.missingField "user" "username"))
    ∧ (∀ (f : Nat) (w : String) (ts : List Token),
      keywordFromReader f (Token.elementStart "keyword"
          :: Token.attr "word" w :: Token.elementEndEmpty :: ts)
        = .error (.missingField "keyword" "place"))
    ∧ (∀ (f : Nat) (w : String) (ts : List Token),
      nlwordFromReader f (Token.elementStart "nlword"
          :: Token.attr "word" w :: Token.elementEndEmpty :: ts)
        = .error (.missingField "nlword" "valsi"))
    ∧ (∀ (f : Nat) (ts : List Token),
      glossFromReader f (Token.elementStart "glossword"
          :: Token.elementEndEmpty :: ts)
        = .error (.missingField "glossword" "word")) := by
  refine ⟨?_, ?_, ?_, ?_, ?_, ?_, ?_⟩
  case refine_3 => intro f w u d ts; rfl
  case refine_4 => intro f ts; rfl
  case refine_5 => intro f w ts; rfl
  case refine_6 => intro f w ts; rfl
  case refine_7 => intro f ts; rfl
  · intro ws hws
    have key : ∀ g, dictLoop ((wsCost ws + g) + 1) none none
        (l2eLin ws ++ [Token.elementEndClose "dictionary"])
        = .error (.missingField "Dictionary" "english to lojban") := by
      intro g
      rw [dictLoop_l2e ws hws none none _ g]
      rw [show wsCost ws + g = ((ws.map fun v => vCost v + 1).sum + g) + 1
        from by simp only [wsCost]; omega]
      rw [dictLoop_close]
      rfl
    obtain ⟨g, hg⟩ : ∃ g,
        (dictLin (l2eLin ws)).length + 1 = (wsCost ws + g) + 1 := by
      have h := wsCost_le_length ws
      refine ⟨(dictLin (l2eLin ws)).length - wsCost ws, ?_⟩
      simp only [dictLin, List.length_append, List.length_cons,
        List.length_nil] at *
      omega
    rw [parse, hg, fromReader_dictLin2, key g]
    rfl
  · intro ns hns
    have key : ∀ g, dictLoop ((nsCost ns + g) + 1) none none
        (e2lLin ns ++ [Token.elementEndClose "dictionary"])
        = .error (.missingField "Dictionary" "lojban to english") := by
      intro g
      rw [dictLoop_e2l ns hns none none _ g]
      rw [show nsCost ns + g = (ns.length + g) + 1
        from by simp only [nsCost]; omega]
      rw [dictLoop_close]
      rfl
    obtain ⟨g, hg⟩ : ∃ g,
        (dictLin (e2lLin ns)).length + 1 = (nsCost ns + g) + 1 := by
      have h := nsCost_le_length ns
      refine ⟨(dictLin (e2lLin ns)).length - nsCost ns, ?_⟩
      simp only [dictLin, List.length_append, List.length_cons,
        List.length_nil] at *
      omega
    rw [parse, hg, fromReader_dictLin2, key g]
    rfl

/-- Counterexample to C2 as stated: the lojban-to-English direction — a
required child of `dictionary` — appears twice, yet the parse succeeds
instead of enforcing "exactly once". -/
theorem claim2_counterexample :
    parse (dictLin (l2eLin [] ++ l2eLin [] ++ e2lLin [])) = .ok ⟨[], []⟩ := by
  decide

/-- Witness for C2 at a concrete one-direction document. -/
theorem claim2_witness :
    [sampleValsi].all CValsi.valid = true
      ∧ parse (dictLin (l2eLin [sampleValsi]))
          = .error (.missingField "Dictionary" "english to lojban") :=
  ⟨by decide, claim2_missing_direction.1 [sampleValsi] (by decide)⟩

/-- Claim C3: `WordType` is parsed from a closed vocabulary of exactly
fourteen strings, each mapped to its variant; any string outside the
vocabulary fails with an error carrying the literal offending text. -/
theorem claim3_wordtype :
    (WordType.fromStr "bu-letteral" = .ok .buLetteral
      ∧ WordType.fromStr "cmavo" = .ok .cmavo
      ∧ WordType.fromStr "cmavo-compound" = .ok .cmavoCompound
      ∧ WordType.fromStr "cmevla" = .ok .cmevla
      ∧ WordType.fromStr "experimental cmavo" = .ok .experimentalCmavo
      ∧ WordType.fromStr "experimental gismu" = .ok .experimentalGismu
      ∧ WordType.fromStr "fu\x27ivla" = .ok .fuhivla
      ∧ WordType.fromStr "gismu" = .ok .gismu
      ∧ WordType.fromStr "lujvo" = .ok .lujvo
      ∧ WordType.fromStr "obsolete cmavo" = .ok .obsoleteCmavo
      ∧ WordType.fromStr "obsolete cmevla" = .ok .obsoleteCmevla
      ∧ WordType.fromStr "obsolete fu\x27ivla" = .ok .obsoleteFuhivla
      ∧ WordType.fromStr "obsolete zei-lujvo" = .ok .obsoleteZeiLujvo
      ∧ WordType.fromStr "zei-lujvo" = .ok .zeiLujvo)
    ∧ wordTypeVocabulary.length = 14
    ∧ (∀ s : String, s ∉ wordTypeVocabulary → WordType.fromStr s = .error s) := by
  refine ⟨⟨rfl, rfl, rfl, rfl, rfl, rfl, rfl, rfl, rfl, rfl, rfl, rfl, rfl, rfl⟩,
    rfl, ?_⟩
  intro s hs
  simp only [wordTypeVocabulary, List.mem_cons, List.not_mem_nil, or_false,
    not_or] at hs
  obtain ⟨h1, h2, h3, h4, h5, h6, h7, h8, h9, h10, h11, h12, h13, h14⟩ := hs
  simp [WordType.fromStr, h1, h2, h3, h4, h5, h6, h7, h8, h9, h10, h11, h12,
    h13, h14]

/-- Witness for C3 at the concrete out-of-vocabulary string of the spec. -/
theorem claim3_witness :
    "not-a-type" ∉ wordTypeVocabulary
      ∧ WordType.fromStr "not-a-type" = .error "not-a-type" :=
  ⟨by decide, claim3_wordtype.2.2 "not-a-type" (by decide)⟩

/-- The stream of the C4 counterexample: a `foo` child inside a
lojban-to-English direction. -/
def c4Stream : List Token :=
  [Token.elementStart "dictionary", Token.elementEndOpen,
   Token.elementStart "direction", Token.attr "from" "lojban",
   Token.attr "to" "English", Token.elementEndOpen,
   Token.elementStart "foo", Token.elementEndEmpty,
   Token.elementEndClose "direction", Token.elementEndClose "dictionary"]

/-- Counterexample to C4 as stated: the unknown child `foo` inside a
direction does not produce an `UnknownField` error naming the record and
the offending element — it produces a `MissingField` error naming the
direction record and the expected tag. -/
theorem claim4_counterexample :
    parse c4Stream = .error (.missingField "lojban-to-english" "valsi")
      ∧ parse c4Stream ≠ .error (.unknownField "lojban-to-english" "foo")
      ∧ parse c4Stream ≠ .error (.unknownField "direction" "foo")
      ∧ parse c4Stream ≠ .error (.unknownField "Dictionary" "foo") := by
  refine ⟨by decide, by decide, by decide, by decide⟩

/-- Claim C4 (amended): an unknown child element of `dictionary` or of a
record element fails with `UnknownField` naming the record and
the offending element; inside a `direction`, however, a child tag other
than the expected one fails with a `MissingField` error naming the
direction record and the expected tag (`valsi` resp. `nlword`). -/
theorem claim4_unknown_child :
    (∀ (tag : String) (ts : List Token), tag ≠ "direction" →
      parse (Token.elementStart "dictionary" :: Token.elementEndOpen
          :: Token.elementStart tag :: ts)
        = .error (.unknownField "Dictionary" tag))
    ∧ (∀ (tag : String) (ts : List Token), tag ≠ "valsi" →
      parse (Token.elementStart "dictionary" :: Token.elementEndOpen
          :: Token.elementStart "direction" :: Token.attr "from" "lojban"
          :: Token.attr "to" "English" :: Token.elementEndOpen
          :: Token.elementStart tag :: ts)
        = .error (.missingField "lojban-to-english" "valsi"))
    ∧ (∀ (tag : String) (ts : List Token), tag ≠ "nlword" →
      parse (Token.elementStart "dictionary" :: Token.elementEndOpen
          :: Token.elementStart "direction" :: Token.attr "from" "English"
          :: Token.attr "to" "lojban" :: Token.elementEndOpen
          :: Token.elementStart tag :: ts)
        = .error (.missingField "english-to-lojban" "nlword"))
    ∧ (∀ (f : Nat) (c : String) (ts : List Token),
      c ∉ (["rafsi", "selmaho", "user", "definition", "definitionid",
            "notes", "glossword", "keyword"] : List String) →
      wordFromReader (f + 1) (Token.elementStart "valsi"
          :: Token.elementEndOpen :: Token.elementStart c :: ts)
        = .error (.unknownField "valsi" c)) := by
  refine ⟨?_, ?_, ?_, ?_⟩
  · intro tag ts h
    simp [parse, Dictionary.fromReader, readTillElementStart, findAttribute,
      dictLoop, Except.bind, bind, Except.map, h]
  · intro tag ts h
    simp [parse, Dictionary.fromReader, readTillElementStart, findAttribute,
      dictLoop, directionAttrs, l2eLoop, Except.bind, bind, Except.map, h]
  · intro tag ts h
    simp [parse, Dictionary.fromReader, readTillElementStart, findAttribute,
      dictLoop, directionAttrs, e2lLoop, Except.bind, bind, Except.map, h]
  · intro f c ts h
    simp only [List.mem_cons, List.not_mem_nil, or_false, not_or] at h
    obtain ⟨h1, h2, h3, h4, h5, h6, h7, h8⟩ := h
    simp [wordFromReader, readTillElementStart, valsiAttrs, valsiChildren,
      Except.bind, bind, h1, h2, h3, h4, h5, h6, h7, h8]

/-- Witness for C4's amended claim at concrete inputs. -/
theorem claim4_witness :
    ("foo" ≠ "direction"
      ∧ parse [Token.elementStart "dictionary", Token.elementEndOpen,
          Token.elementStart "foo"]
        = .error (.unknownField "Dictionary" "foo"))
    ∧ ("foo" ≠ "valsi"
      ∧ parse [Token.elementStart "dictionary", Token.elementEndOpen,
          Token.elementStart "direction", Token.attr "from" "lojban",
          Token.attr "to" "English", Token.elementEndOpen,
          Token.elementStart "foo"]
        = .error (.missingField "lojban-to-english" "valsi"))
    ∧ ("foo" ∉ (["rafsi", "selmaho", "user", "definition", "definitionid",
          "notes", "glossword", "keyword"] : List String)
      ∧ wordFromReader 1 [Token.elementStart "valsi", Token.elementEndOpen,
          Token.elementStart "foo"]
        = .error (.unknownField "valsi" "foo")) :=
  ⟨⟨by decide, claim4_unknown_child.1 "foo" [] (by decide)⟩,
   ⟨by decide, claim4_unknown_child.2.1 "foo" [] (by decide)⟩,
   ⟨by decide, claim4_unknown_child.2.2.2 0 "foo" [] (by decide)⟩⟩

/-- Claim C5: an attribute outside the declared set of its element fails
with `UnknownField` naming the record and the attribute; the `dictionary`
element permits no attributes at all, its first attribute being reported
with the attribute's key. -/
theorem claim5_unknown_attribute :
    (∀ (k v : String) (ts : List Token),
      parse (Token.elementStart "dictionary" :: Token.attr k v :: ts)
        = .error (.unknownField "Dictionary" k))
    ∧ (∀ (k v : String) (ts : List Token),
      k ∉ (["from", "to"] : List String) →
      parse (Token.elementStart "dictionary" :: Token.elementEndOpen
          :: Token.elementStart "direction" :: Token.attr k v :: ts)
        = .error (.unknownField "direction" k))
    ∧ (∀ (f : Nat) (k v : String) (ts : List Token),
      k ∉ (["word", "type", "unofficial"] : List String) →
      wordFromReader f (Token.elementStart "valsi" :: Token.attr k v :: ts)
        = .error (.unknownField "valsi" k))
    ∧ (∀ (f : Nat) (k v : String) (ts : List Token),
      k ∉ (["word", "sense", "place", "valsi"] : List String) →
      nlwordFromReader f (Token.elementStart "nlword" :: Token.attr k v :: ts)
        = .error (.unknownField "nlword" k)) := by
  refine ⟨?_, ?_, ?_, ?_⟩
  · intro k v ts
    simp [parse, Dictionary.fromReader, readTillElementStart, findAttribute,
      Except.bind, bind, Except.map]
  · intro k v ts h
    simp only [List.mem_cons, List.not_mem_nil, or_false, not_or] at h
    simp [parse, Dictionary.fromReader, readTillElementStart, findAttribute,
      dictLoop, directionAttrs, Except.bind, bind, Except.map, h.1, h.2]
  · intro f k v ts h
    simp only [List.mem_cons, List.not_mem_nil, or_false, not_or] at h
    simp [wordFromReader, readTillElementStart, valsiAttrs, Except.bind,
      bind, h.1, h.2.1, h.2.2]
  · intro f k v ts h
    simp only [List.mem_cons, List.not_mem_nil, or_false, not_or] at h
    simp [nlwordFromReader, readTillElementStart, nlwordAttrs, Except.bind,
      bind, h.1, h.2.1, h.2.2.1, h.2.2.2]

/-- Witness for C5 at the spec's concrete example `foo="bar"` on `valsi`
and on `dictionary`. -/
theorem claim5_witness :
    parse [Token.elementStart "dictionary", Token.attr "foo" "bar"]
        = .error (.unknownField "Dictionary" "foo")
    ∧ ("foo" ∉ (["word", "type", "unofficial"] : List String)
      ∧ wordFromReader 0 [Token.elementStart "valsi", Token.attr "foo" "bar"]
          = .error (.unknownField "valsi" "foo")) :=
  ⟨claim5_unknown_attribute.1 "foo" "bar" [],
   by decide, claim5_unknown_attribute.2.2.1 0 "foo" "bar" [] (by decide)⟩

/-- Claim C6: for a `direction` element, only the attribute pairs
(lojban, English) and (English, lojban) are accepted; any other
combination of present or absent `from`/`to` values makes the parse fail
(with the unknown-direction error). -/
theorem claim6_invalid_direction (fv tv : Option String) (ts : List Token)
    (h : ¬((fv = some "lojban" ∧ tv = some "English")
        ∨ (fv = some "English" ∧ tv = some "lojban"))) :
    parse (Token.elementStart "dictionary" :: Token.elementEndOpen
        :: Token.elementStart "direction"
        :: (optAttrTok "from" fv ++ optAttrTok "to" tv
            ++ Token.elementEndOpen :: ts))
      = .error (.unknownField "Dictionary" "unknown direction") := by
  cases fv <;> cases tv <;>
    simp only [not_or, not_and] at h <;>
    simp [parse, Dictionary.fromReader, readTillElementStart, findAttribute,
      dictLoop, directionAttrs, optAttrTok, Except.bind, bind, Except.map] <;>
    (try split <;> simp_all)

/-- Witness for C6 at the spec's concrete example
`from="English" to="English"`. -/
theorem claim6_witness :
    (¬(((some "English" : Option String) = some "lojban"
          ∧ (some "English" : Option String) = some "English")
        ∨ ((some "English" : Option String) = some "English"
          ∧ (some "English" : Option String) = some "lojban")))
    ∧ parse (Token.elementStart "dictionary" :: Token.elementEndOpen
        :: Token.elementStart "direction"
        :: (optAttrTok "from" (some "English")
            ++ optAttrTok "to" (some "English")
            ++ Token.elementEndOpen :: []))
      = .error (.unknownField "Dictionary" "unknown direction") :=
  ⟨by decide, claim6_invalid_direction (some "English") (some "English") []
    (by decide)⟩

/-- Claim C7: a self-closing `dictionary` element fails with the
early-end `MissingField` error rather than producing an empty
`Dictionary`, and a self-closing `direction` element (whatever its
`from`/`to` attributes) fails the same way. -/
theorem claim7_self_closing :
    (∀ ts : List Token,
      parse (Token.elementStart "dictionary" :: Token.elementEndEmpty :: ts)
        = .error (.missingField "Dictionary" "early end"))
    ∧ (∀ (fv tv : Option String) (ts : List Token),
      parse (Token.elementStart "dictionary" :: Token.elementEndOpen
          :: Token.elementStart "direction"
          :: (optAttrTok "from" fv ++ optAttrTok "to" tv
              ++ Token.elementEndEmpty :: ts))
        = .error (.missingField "direction" "early end")) := by
  constructor
  · intro ts
    simp [parse, Dictionary.fromReader, readTillElementStart, findAttribute,
      Except.bind, bind, Except.map]
  · intro fv tv ts
    cases fv <;> cases tv <;>
      simp [parse, Dictionary.fromReader, readTillElementStart, findAttribute,
        directionAttrs, dictLoop, optAttrTok, Except.bind, bind, Except.map,
        List.length_cons, List.length_append]

/-- Claim C8: on a conforming `valsi` element, an absent `unofficial`
attribute yields a parsed `Word` with `unofficial = false`, and
`unofficial="true"` yields `unofficial = true`. -/
theorem claim8_unofficial (v : CValsi) (hv : v.valid = true) (f : Nat)
    (ts : List Token) :
    (v.unofficial = none →
      wordFromReader (vCost v + f) (v.lin ++ ts) = .ok (v.toWord, ts)
        ∧ v.toWord.unofficial = false)
    ∧ (v.unofficial = some true →
      wordFromReader (vCost v + f) (v.lin ++ ts) = .ok (v.toWord, ts)
        ∧ v.toWord.unofficial = true) := by
  constructor <;> intro h <;>
    exact ⟨wordFromReader_ok v hv f ts, by simp [CValsi.toWord, h]⟩

/-- Witness for C8: both branches at concrete conforming `valsi`
elements. -/
theorem claim8_witness :
    ({ sampleValsi with unofficial := none }.valid = true
      ∧ { sampleValsi with unofficial := none }.unofficial = none
      ∧ ({ sampleValsi with unofficial := none } : CValsi).toWord.unofficial
          = false)
    ∧ (sampleValsi.valid = true ∧ sampleValsi.unofficial = some true
      ∧ sampleValsi.toWord.unofficial = true) :=
  ⟨⟨by decide, rfl,
    ((claim8_unofficial { sampleValsi with unofficial := none } (by decide) 0
      []).1 rfl).2⟩,
   ⟨by decide, rfl, ((claim8_unofficial sampleValsi (by decide) 0 []).2 rfl).2⟩⟩

/-- Claim C9: two direction elements with the same valid `(from, to)`
pair in one document parse successfully with no duplicate-direction
error, and the resulting sequence holds exactly the entries of the last
such direction element (silent overwrite, last parse wins). -/
theorem claim9_last_direction_wins :
    (∀ (ws1 ws2 : List CValsi) (ns : List CNlWord),
      ws1.all CValsi.valid = true → ws2.all CValsi.valid = true →
      ns.all CNlWord.valid = true →
      parse (dictLin (l2eLin ws1 ++ l2eLin ws2 ++ e2lLin ns))
        = .ok ⟨ws2.map CValsi.toWord, ns.map CNlWord.toNlWord⟩)
    ∧ (∀ (ws : List CValsi) (ns1 ns2 : List CNlWord),
      ws.all CValsi.valid = true → ns1.all CNlWord.valid = true →
      ns2.all CNlWord.valid = true →
      parse (dictLin (l2eLin ws ++ e2lLin ns1 ++ e2lLin ns2))
        = .ok ⟨ws.map CValsi.toWord, ns2.map CNlWord.toNlWord⟩) := by
  constructor
  · intro ws1 ws2 ns h1 h2 h3
    have key : ∀ g, dictLoop
        ((wsCost ws1 + ((wsCost ws2 + ((nsCost ns + g) + 1)) + 1)) + 1)
        none none
        (l2eLin ws1 ++ (l2eLin ws2 ++ (e2lLin ns
          ++ [Token.elementEndClose "dictionary"])))
        = .ok (⟨ws2.map CValsi.toWord, ns.map CNlWord.toNlWord⟩, []) := by
      intro g
      rw [dictLoop_l2e _ h1]
      rw [show wsCost ws1 + ((wsCost ws2 + ((nsCost ns + g) + 1)) + 1)
          = (wsCost ws2 + (((nsCost ns + g) + 1) + wsCost ws1)) + 1
        from by omega]
      rw [dictLoop_l2e _ h2]
      rw [show wsCost ws2 + (((nsCost ns + g) + 1) + wsCost ws1)
          = (nsCost ns + (g + wsCost ws1 + wsCost ws2)) + 1 from by omega]
      rw [dictLoop_e2l _ h3]
      rw [show nsCost ns + (g + wsCost ws1 + wsCost ws2)
          = (ns.length + (g + wsCost ws1 + wsCost ws2)) + 1
        from by simp only [nsCost]; omega]
      rw [dictLoop_close]
      rfl
    obtain ⟨g, hg⟩ : ∃ g,
        (dictLin (l2eLin ws1 ++ l2eLin ws2 ++ e2lLin ns)).length + 1
          = (wsCost ws1 + ((wsCost ws2 + ((nsCost ns + g) + 1)) + 1)) + 1 := by
      have b1 := wsCost_le_length ws1
      have b2 := wsCost_le_length ws2
      have b3 := nsCost_le_length ns
      refine ⟨(dictLin (l2eLin ws1 ++ l2eLin ws2 ++ e2lLin ns)).length
        - wsCost ws1 - wsCost ws2 - nsCost ns - 2, ?_⟩
      simp only [dictLin, List.length_append, List.length_cons,
        List.length_nil] at *
      omega
    rw [parse, hg, fromReader_dictLin2]
    simp only [List.append_assoc]
    rw [key g]
    rfl
  · intro ws ns1 ns2 h1 h2 h3
    have key : ∀ g, dictLoop
        ((wsCost ws + ((nsCost ns1 + ((nsCost ns2 + g) + 1)) + 1)) + 1)
        none none
        (l2eLin ws ++ (e2lLin ns1 ++ (e2lLin ns2
          ++ [Token.elementEndClose "dictionary"])))
        = .ok (⟨ws.map CValsi.toWord, ns2.map CNlWord.toNlWord⟩, []) := by
      intro g
      rw [dictLoop_l2e _ h1]
      rw [show wsCost ws + ((nsCost ns1 + ((nsCost ns2 + g) + 1)) + 1)
          = (nsCost ns1 + (((nsCost ns2 + g) + 1) + wsCost ws)) + 1
        from by omega]
      rw [dictLoop_e2l _ h2]
      rw [show nsCost ns1 + (((nsCost ns2 + g) + 1) + wsCost ws)
          = (nsCost ns2 + (g + wsCost ws + nsCost ns1)) + 1 from by omega]
      rw [dictLoop_e2l _ h3]
      rw [show nsCost ns2 + (g + wsCost ws + nsCost ns1)
          = (ns2.length + (g + wsCost ws + nsCost ns1)) + 1
        from by simp only [nsCost]; omega]
      rw [dictLoop_close]
      rfl
    obtain ⟨g, hg⟩ : ∃ g,
        (dictLin (l2eLin ws ++ e2lLin ns1 ++ e2lLin ns2)).length + 1
          = (wsCost ws + ((nsCost ns1 + ((nsCost ns2 + g) + 1)) + 1)) + 1 := by
      have b1 := wsCost_le_length ws
      have b2 := nsCost_le_length ns1
      have b3 := nsCost_le_length ns2
      refine ⟨(dictLin (l2eLin ws ++ e2lLin ns1 ++ e2lLin ns2)).length
        - wsCost ws - nsCost ns1 - nsCost ns2 - 2, ?_⟩
      simp only [dictLin, List.length_append, List.length_cons,
        List.length_nil] at *
      omega
    rw [parse, hg, fromReader_dictLin2]
    simp only [List.append_assoc]
    rw [key g]
    rfl

/-- Witness for C9: a duplicated lojban-to-English direction whose first
occurrence holds one entry and whose last is empty parses to the empty
sequence — the last direction's entries win. -/
theorem claim9_witness :
    ([sampleValsi].all CValsi.valid = true ∧ ([] : List CValsi).all CValsi.valid = true
      ∧ ([] : List CNlWord).all CNlWord.valid = true)
    ∧ parse (dictLin (l2eLin [sampleValsi] ++ l2eLin [] ++ e2lLin []))
        = .ok ⟨[], []⟩ :=
  ⟨⟨by decide, by decide, by decide⟩,
   claim9_last_direction_wins.1 [sampleValsi] [] [] (by decide) (by decide)
     (by decide)⟩

/-- Claim C10: a direction element with a valid pair, an explicit start
tag and matching end tag but zero children parses successfully and
populates the corresponding sequence with the empty sequence; only the
self-closing form of `direction` is rejected (as an early-end
missing-field error). -/
theorem claim10_empty_direction :
    (∀ ns : List CNlWord, ns.all CNlWord.valid = true →
      parse (dictLin (l2eLin [] ++ e2lLin ns))
        = .ok ⟨[], ns.map CNlWord.toNlWord⟩)
    ∧ (∀ ws : List CValsi, ws.all CValsi.valid = true →
      parse (dictLin (l2eLin ws ++ e2lLin []))
        = .ok ⟨ws.map CValsi.toWord, []⟩)
    ∧ (∀ ts : List Token,
      parse (Token.elementStart "dictionary" :: Token.elementEndOpen
          :: Token.elementStart "direction" :: Token.attr "from" "lojban"
          :: Token.attr "to" "English" :: Token.elementEndEmpty :: ts)
        = .error (.missingField "direction" "early end")) := by
  refine ⟨?_, ?_, ?_⟩
  · intro ns hns
    have h := parse_doc ⟨[], ns⟩ (by simp [CDoc.valid, hns])
    simpa [CDoc.lin] using h
  · intro ws hws
    have h := parse_doc ⟨ws, []⟩ (by simp [CDoc.valid, hws])
    simpa [CDoc.lin] using h
  · intro ts
    simp [parse, Dictionary.fromReader, readTillElementStart, findAttribute,
      dictLoop, directionAttrs, Except.bind, bind, Except.map]

/-- Witness for C10 at concrete documents with one empty direction. -/
theorem claim10_witness :
    ([sampleNlWord].all CNlWord.valid = true
      ∧ parse (dictLin (l2eLin [] ++ e2lLin [sampleNlWord]))
          = .ok ⟨[], [sampleNlWord.toNlWord]⟩)
    ∧ ([sampleValsi].all CValsi.valid = true
      ∧ parse (dictLin (l2eLin [sampleValsi] ++ e2lLin []))
          = .ok ⟨[sampleValsi.toWord], []⟩) :=
  ⟨⟨by decide, claim10_empty_direction.1 [sampleNlWord] (by decide)⟩,
   ⟨by decide, claim10_empty_direction.2.1 [sampleValsi] (by decide)⟩⟩

end Xauste
